import Mathlib

/-!
Verification of the fan-out/fan-in media-chunking pipeline
(repository `sam-bun-template`).

The repository's `src/` tree contains the generic cloud-client wrappers
(`dynamo.ts` with `AwsDynamoDB`, `tools.ts` with `AwsS3`, `DBConnect` and
`AwsSQS`) and the Lambda entry point skeleton (`index.ts` with `MyEvent`,
`MyResult` and an empty `handler`).  Those wrappers are embedded here
directly from the source.  The core orchestration (Splitter, Job Store
access patterns, Completion Gate, Merger) is described by the design
document but its implementation is not present under `src/`; where a
property concerns that missing core, the definitions below are modelled
from the specification's words and are marked as such in their doc
comments.
-/

namespace SamBun

/-! Errors raised by the DynamoDB client (dynamo.ts imports) -/

/-- Errors that `client.send` can surface in `dynamo.ts`:
`ConditionalCheckFailedException`, `ResourceNotFoundException`
(both imported at the top of the file), or any other AWS error,
abstracted by a numeric code. -/
inductive DynamoError
  | conditionalCheckFailed
  | resourceNotFound
  | otherError (code : Nat)
deriving DecidableEq, Repr

/-- A stored DynamoDB item, abstracted: attribute values are opaque. -/
structure DynamoItem where
  attrs : List (String × Nat)
deriving DecidableEq, Repr

/-- The DynamoDB service semantics of `UpdateItemCommand` with a
`ConditionExpression` and `ReturnValues: ALL_NEW`, as used by
`AwsDynamoDB.updateItem` (dynamo.ts lines 110-117): if the condition
expression does not hold on the current item the service raises
`ConditionalCheckFailedException`; otherwise the update expression is
applied and the new attributes are returned.  An infrastructure fault
(`infra = some e`) makes the send fail with that error instead. -/
def dynamoServiceUpdate (current : Option DynamoItem)
    (cond : Option DynamoItem → Bool) (apply : Option DynamoItem → DynamoItem)
    (infra : Option DynamoError) : Except DynamoError DynamoItem :=
  match infra with
  | some e => .error e
  | none =>
    if cond current then .ok (apply current) else .error .conditionalCheckFailed

/-- `AwsDynamoDB.updateItem` (dynamo.ts lines 96-132): sends the
`UpdateItemCommand` and returns the unmarshalled new attributes; in the
catch block, a `ConditionalCheckFailedException` is logged as a warning
and `null` is returned, while every other error is logged and rethrown. -/
def updateItem (current : Option DynamoItem)
    (cond : Option DynamoItem → Bool) (apply : Option DynamoItem → DynamoItem)
    (infra : Option DynamoError) : Except DynamoError (Option DynamoItem) :=
  match dynamoServiceUpdate current cond apply infra with
  | .ok attrs => .ok (some attrs)
  | .error .conditionalCheckFailed => .ok none
  | .error e => .error e

/-! Model of AwsS3.fileExists (tools.ts lines 100-111) -/

/-- Errors an S3 `HeadObjectCommand` can surface: the `NotFound` error
name, or any other error, abstracted by a numeric code. -/
inductive S3Error
  | notFound
  | otherError (code : Nat)
deriving DecidableEq, Repr

/-- `AwsS3.fileExists` (tools.ts lines 100-111): sends a
`HeadObjectCommand`; on success returns `true`; in the catch block, an
error whose name is `NotFound` returns `false` and every other error is
rethrown.  The head request's outcome is the argument. -/
def fileExists (head : Except S3Error Unit) : Except S3Error Bool :=
  match head with
  | .ok _ => .ok true
  | .error .notFound => .ok false
  | .error e => .error e

/-! Model of DBConnect.transaction (tools.ts lines 226-237) -/

/-- A MySQL connection, abstracted to the writes it has committed and
the writes pending inside the currently open transaction. -/
structure Conn (α : Type) where
  committed : List α
  pending : List α
deriving DecidableEq, Repr

/-- `connection.beginTransaction()`: opens a transaction with no
pending writes. -/
def beginTransaction {α : Type} (c : Conn α) : Conn α :=
  { c with pending := [] }

/-- `connection.commit()`: makes the pending writes durable. -/
def commit {α : Type} (c : Conn α) : Conn α :=
  { committed := c.committed ++ c.pending, pending := [] }

/-- `connection.rollback()`: discards the pending writes. -/
def rollback {α : Type} (c : Conn α) : Conn α :=
  { c with pending := [] }

/-- `DBConnect.transaction` (tools.ts lines 226-237): begins a
transaction, runs the callback (modelled by the writes it executes on
the connection before it either resolves with a result or rejects with
an error), commits and returns the result when the callback resolves,
and rolls back and rethrows the same error when the callback throws. -/
def transaction {α T ε : Type} (c : Conn α)
    (writes : List α) (outcome : Except ε T) : Conn α × Except ε T :=
  let c1 := beginTransaction c
  let c2 := { c1 with pending := c1.pending ++ writes }
  match outcome with
  | .ok t => (commit c2, .ok t)
  | .error e => (rollback c2, .error e)

/-! Job Store data model and Completion Gate

The Job/Chunk records and the Job Store access patterns
(`markChunkDone`, `incrementCompletedCount`, `transitionJobStatus`,
`onChunkComplete`) are not implemented under `src/` — the Lambda
`handler` in `index.ts` is an empty stub — so they are modelled from
the specification (spec sections 3, 4.3 and 4.4), each as a single
atomic conditional operation in the style of `AwsDynamoDB.updateItem`'s
condition-expression semantics. -/

/-- Modelled from the spec: Job `status`, "one of
`{SPLITTING, IN_PROGRESS, MERGING, COMPLETE, FAILED}`" (spec section 3). -/
inductive JobStatus
  | SPLITTING
  | IN_PROGRESS
  | MERGING
  | COMPLETE
  | FAILED
deriving DecidableEq, Repr

/-- Modelled from the spec: Chunk `status`, "one of
`{PENDING, PROCESSING, DONE, FAILED}`" (spec section 3). -/
inductive ChunkStatus
  | PENDING
  | PROCESSING
  | DONE
  | FAILED
deriving DecidableEq, Repr

/-- Modelled from the spec: the shared mutable state of one job in the
Job Store — the per-chunk statuses indexed by `chunkIndex` (the list's
length is the job's `expectedChunkCount`, fixed at split time), the
`completedChunkCount` counter, and the job `status` (spec section 3). -/
structure GateState where
  chunks : List ChunkStatus
  completedCount : Nat
  status : JobStatus
deriving DecidableEq, Repr

/-- The job's `expectedChunkCount`: the number of chunk records created
at split time. -/
def GateState.expectedCount (st : GateState) : Nat :=
  st.chunks.length

/-- Modelled from the spec: `markChunkDone(jobId, chunkIndex) →
wasAlreadyDone` — "atomic conditional transition; returns whether this
call actually performed the transition" (spec section 4.3).  A chunk
already `DONE` (or a missing chunk record, whose conditional update
fails) leaves the state unchanged and reports `wasAlreadyDone = true`. -/
def markChunkDone (st : GateState) (i : Nat) : GateState × Bool :=
  if h : i < st.chunks.length then
    if st.chunks.get ⟨i, h⟩ = .DONE then (st, true)
    else ({ st with chunks := st.chunks.set i .DONE }, false)
  else (st, true)

/-- Modelled from the spec: `incrementCompletedCount(jobId) →
(newCount, expectedCount)` — "atomic conditional increment ...
implemented as a single conditional update, not read-then-write"
(spec section 4.3). -/
def incrementCompletedCount (st : GateState) : GateState × (Nat × Nat) :=
  ({ st with completedCount := st.completedCount + 1 },
   (st.completedCount + 1, st.expectedCount))

/-- Modelled from the spec: `transitionJobStatus(jobId, fromStatus,
toStatus) → success` — "atomic conditional transition", succeeding only
when the prior status is exactly `fromStatus` (spec sections 4.3, 4.4). -/
def transitionJobStatus (st : GateState) (src dst : JobStatus) :
    GateState × Bool :=
  if st.status = src then ({ st with status := dst }, true) else (st, false)

/-- Modelled from the spec: the Completion Gate
`onChunkComplete(jobId, chunkIndex)` (spec section 4.4).  Step 1: call
`markChunkDone`; on a duplicate delivery return without further action.
Step 2: otherwise call `incrementCompletedCount`.  Step 3: if
`newCount == expectedCount`, attempt
`transitionJobStatus(IN_PROGRESS, MERGING)`; the returned Boolean is
whether this caller observed the successful transition and hence
invokes the Merger. -/
def onChunkComplete (st : GateState) (i : Nat) : GateState × Bool :=
  let m := markChunkDone st i
  if m.2 then (m.1, false)
  else
    let inc := incrementCompletedCount m.1
    if inc.2.1 = inc.2.2 then
      transitionJobStatus inc.1 .IN_PROGRESS .MERGING
    else (inc.1, false)

/-! Completion-threshold race -/

/-- Modelled from the spec: M concurrent callers of `onChunkComplete`
that have all reached `newCount == expectedCount` each attempt the
step-3 conditional transition `IN_PROGRESS → MERGING`.  Every Job Store
mutation is a single atomic conditional operation, so any concurrent
execution is a serialization of the M compare-and-swap operations; this
function performs them in serialization order and records each caller's
observed `success` flag (the caller invokes the Merger exactly when its
flag is `true`). -/
def raceToMerging (st : GateState) (M : Nat) : GateState × List Bool :=
  match M with
  | 0 => (st, [])
  | m + 1 =>
    let r := transitionJobStatus st .IN_PROGRESS .MERGING
    let rest := raceToMerging r.1 m
    (rest.1, r.2 :: rest.2)

/-! Splitter chunk geometry -/

/-- Modelled from the spec: the Splitter's
`expectedChunkCount = ceil(totalDuration / chunkDurationSeconds)`
(spec section 4.1); the `handler` in `index.ts` that should compute it
is an empty stub.  Durations are in seconds, modelled as rationals. -/
def expectedChunkCount (total dur : ℚ) : Nat :=
  (⌈total / dur⌉).toNat

/-- Modelled from the spec: the ordered list of chunk boundaries
computed by the Splitter — chunk `i` covers
`[i * dur, (i + 1) * dur)`, with the final chunk's `endTime` clamped to
`totalDuration` (spec section 4.1). -/
def chunkRanges (total dur : ℚ) : List (ℚ × ℚ) :=
  (List.range (expectedChunkCount total dur)).map
    (fun (i : ℕ) => ((i : ℚ) * dur, min (((i : ℚ) + 1) * dur) total))

/-! Splitter idempotence (pipeline state) -/

/-- Modelled from the spec: the Job record as the Splitter writes it —
`expectedChunkCount` and `status` (spec sections 3, 4.1). -/
structure JobRecord where
  expectedChunkCount : Nat
  status : JobStatus
deriving DecidableEq, Repr

/-- Modelled from the spec: a Chunk record, identified by
`jobId + chunkIndex`, with its offset range and status
(spec section 3). -/
structure ChunkRecord where
  jobId : String
  chunkIndex : Nat
  startTime : ℚ
  endTime : ℚ
  status : ChunkStatus
deriving DecidableEq, Repr

/-- Modelled from the spec: one chunk-work item enqueued per chunk
(spec section 4.1). -/
structure WorkItem where
  jobId : String
  chunkIndex : Nat
deriving DecidableEq, Repr

/-- Modelled from the spec: the durable state the Splitter touches —
the Job table (keyed by `jobId`), the Chunk records, and the work
queue. -/
structure PipelineState where
  jobs : List (String × JobRecord)
  chunkRecords : List ChunkRecord
  queue : List WorkItem
deriving DecidableEq, Repr

/-- Modelled from the spec: `createJobIfAbsent(job) → created` —
"atomic create-only-if-not-exists" (spec section 4.3), the
conditional-put counterpart of `AwsDynamoDB.putItem` with an
attribute-not-exists condition. -/
def createJobIfAbsent (st : PipelineState) (jobId : String)
    (job : JobRecord) : PipelineState × Bool :=
  if (st.jobs.lookup jobId).isSome then (st, false)
  else ({ st with jobs := (jobId, job) :: st.jobs }, true)

/-- Sets the status of the job record with the given id, leaving every
other record unchanged. -/
def setJobRecordStatus (jobs : List (String × JobRecord)) (jobId : String)
    (s : JobStatus) : List (String × JobRecord) :=
  jobs.map (fun p => if p.1 = jobId then (p.1, { p.2 with status := s }) else p)

/-- Modelled from the spec: the Splitter
`split(jobId, sourceRef, chunkDurationSeconds) → expectedChunkCount`
(spec section 4.1) — guarded by `createJobIfAbsent`, it writes the Job
record with `status = SPLITTING`, writes the chunk records, enqueues
one work item per chunk, and transitions the job to `IN_PROGRESS`;
when the job already exists it performs no side effects. -/
def split (st : PipelineState) (jobId : String) (total dur : ℚ) :
    PipelineState × Nat :=
  let n := expectedChunkCount total dur
  let created := createJobIfAbsent st jobId ⟨n, .SPLITTING⟩
  if created.2 then
    let recs := (List.range n).map (fun (i : ℕ) =>
      ({ jobId := jobId, chunkIndex := i,
         startTime := (i : ℚ) * dur,
         endTime := min (((i : ℚ) + 1) * dur) total,
         status := .PENDING } : ChunkRecord))
    let items := (List.range n).map
      (fun i => ({ jobId := jobId, chunkIndex := i } : WorkItem))
    ({ jobs := setJobRecordStatus created.1.jobs jobId .IN_PROGRESS,
       chunkRecords := created.1.chunkRecords ++ recs,
       queue := created.1.queue ++ items }, n)
  else (created.1, n)

/-! Merger -/

/-- Modelled from the spec: merge-time error — `IncompleteJob` when a
chunk lacks an `outputRef` (spec sections 4.5, 7). -/
inductive MergeError
  | IncompleteJob
deriving DecidableEq, Repr

/-- Chunk workers persisting their outputs: each write stores one
chunk's output bytes under its `chunkIndex`, in completion order. -/
def applyWrites (init : Nat → Option (List Nat))
    (ws : List (Nat × List Nat)) : Nat → Option (List Nat) :=
  ws.foldl (fun store w => Function.update store w.1 (some w.2)) init

/-- Modelled from the spec: the Merger `merge(jobId)` (spec section
4.5) — reads the chunk outputs in ascending `chunkIndex` order,
fails with `IncompleteJob` when any chunk lacks an output, and
otherwise assembles the final artifact by ordered concatenation. -/
def merge (store : Nat → Option (List Nat)) (n : Nat) :
    Except MergeError (List Nat) :=
  if ∀ i ∈ List.range n, (store i).isSome then
    .ok (((List.range n).map (fun i => (store i).getD [])).flatten)
  else .error .IncompleteJob

/-! Result shape (index.ts) -/

/-- A chunk entry of the Lambda result (`index.ts` line 15):
`{ s3Path: string; startTime: number }`. -/
structure ChunkInfo where
  s3Path : String
  startTime : ℚ
deriving DecidableEq, Repr

/-- The `body` of `MyResult` (`index.ts` lines 13-16): a `message` and
an optional list of chunk entries. -/
structure MyBody where
  message : String
  chunks : Option (List ChunkInfo)
deriving DecidableEq, Repr

/-- `MyResult` (`index.ts` lines 11-17): what the handler returns —
`{ statusCode: number; body: { message, chunks? } }`. -/
structure MyResult where
  statusCode : Nat
  body : MyBody
deriving DecidableEq, Repr

/-- Modelled from the spec: a chunk entry of the result delivered to
the job submitter, `{ outputRef, startTime }` (spec section 6). -/
structure SpecChunkEntry where
  outputRef : String
  startTime : ℚ
deriving DecidableEq, Repr

/-- Modelled from the spec: the result shape
`{ status, message, chunks?: [{ outputRef, startTime }] }` delivered
to the job submitter (spec section 6). -/
structure SpecResult where
  status : Nat
  message : String
  chunks : Option (List SpecChunkEntry)
deriving DecidableEq, Repr

/-- The correspondence from the source's `MyResult` to the spec's
result shape: `statusCode` is the status field, `body.message` the
message, and each chunk entry's `s3Path` is its output reference. -/
def toSpecResult (r : MyResult) : SpecResult :=
  { status := r.statusCode,
    message := r.body.message,
    chunks := r.body.chunks.map
      (List.map fun c => ⟨c.s3Path, c.startTime⟩) }

/-- The inverse correspondence, rebuilding `MyResult` from the spec's
result shape. -/
def fromSpecResult (r : SpecResult) : MyResult :=
  { statusCode := r.status,
    body := { message := r.message,
              chunks := r.chunks.map
                (List.map fun c => ⟨c.outputRef, c.startTime⟩) } }

/-! Job record invariants (step relation) -/

/-- The number of chunks currently marked `DONE`. -/
def doneCount (st : GateState) : Nat :=
  st.chunks.count .DONE

/-- Modelled from the spec: the operations that mutate a job's record
after it is created — a completion report processed by the Completion
Gate, the Splitter's `SPLITTING → IN_PROGRESS` transition, the
Merger's `MERGING → COMPLETE` transition, and a move to `FAILED` from
any non-terminal state (spec sections 4.1, 4.4, 4.5, 5). -/
inductive GateStep : GateState → GateState → Prop
  | complete (st : GateState) (i : Nat) :
      GateStep st (onChunkComplete st i).1
  | activate (st : GateState) :
      GateStep st (transitionJobStatus st .SPLITTING .IN_PROGRESS).1
  | finishMerge (st : GateState) :
      GateStep st (transitionJobStatus st .MERGING .COMPLETE).1
  | fail (st : GateState) :
      st.status ≠ .COMPLETE → st.status ≠ .FAILED →
      GateStep st { st with status := .FAILED }

/-- A freshly split job: all chunks `PENDING`, counter zero, status
`SPLITTING`. -/
def InitialGate (st : GateState) : Prop :=
  (∀ c ∈ st.chunks, c = ChunkStatus.PENDING) ∧
    st.completedCount = 0 ∧ st.status = .SPLITTING

/-- A job record reachable from a freshly split job by the pipeline's
operations. -/
def ReachableGate (st : GateState) : Prop :=
  ∃ st0, InitialGate st0 ∧ Relation.ReflTransGen GateStep st0 st

/-- Forward movement of the job status: a step either keeps the
status, advances it along
`SPLITTING → IN_PROGRESS → MERGING → COMPLETE`, or fails a
non-terminal job. -/
def ForwardStep (a b : JobStatus) : Prop :=
  a = b ∨ (a = .SPLITTING ∧ b = .IN_PROGRESS)
    ∨ (a = .IN_PROGRESS ∧ b = .MERGING)
    ∨ (a = .MERGING ∧ b = .COMPLETE)
    ∨ (b = .FAILED ∧ a ≠ .COMPLETE ∧ a ≠ .FAILED)

/-- Once the job status is no longer `IN_PROGRESS`, every remaining
caller's conditional transition fails. -/
theorem raceToMerging_count_of_ne (st : GateState) (M : Nat)
    (h : st.status ≠ .IN_PROGRESS) :
    (raceToMerging st M).2.count true = 0 := by
  induction M generalizing st with
  | zero => rfl
  | succ m ih =>
    simp only [raceToMerging, transitionJobStatus, if_neg h]
    simpa using ih st h

/-- The status of the job after `markChunkDone` is unchanged. -/
theorem markChunkDone_status (st : GateState) (i : Nat) :
    (markChunkDone st i).1.status = st.status := by
  unfold markChunkDone
  split
  · split <;> rfl
  · rfl

/-- When the chunk exists and is already `DONE`, `markChunkDone` leaves
the state unchanged and reports `wasAlreadyDone = true`. -/
theorem markChunkDone_of_done (st : GateState) (i : Nat)
    (h : i < st.chunks.length) (hd : st.chunks.get ⟨i, h⟩ = .DONE) :
    markChunkDone st i = (st, true) := by
  simp only [List.get_eq_getElem] at hd
  simp [markChunkDone, h, hd]

/-- A duplicate delivery is a no-op for the whole Completion Gate: when
the chunk is already `DONE`, `onChunkComplete` leaves the state
unchanged and does not trigger the merge. -/
theorem onChunkComplete_of_done (st : GateState) (i : Nat)
    (h : i < st.chunks.length) (hd : st.chunks.get ⟨i, h⟩ = .DONE) :
    onChunkComplete st i = (st, false) := by
  simp [onChunkComplete, markChunkDone_of_done st i h hd]

/-- The first delivery of a not-yet-done chunk marks it `DONE` and
increments the counter by exactly one, whatever the status transition
at the threshold does. -/
theorem onChunkComplete_state_of_not_done (st : GateState) (i : Nat)
    (h : i < st.chunks.length) (hnd : st.chunks.get ⟨i, h⟩ ≠ .DONE) :
    (onChunkComplete st i).1.chunks = st.chunks.set i .DONE ∧
    (onChunkComplete st i).1.completedCount = st.completedCount + 1 := by
  have hm : markChunkDone st i
      = ({ st with chunks := st.chunks.set i .DONE }, false) := by
    simp only [List.get_eq_getElem] at hnd
    simp [markChunkDone, h, hnd]
  simp only [onChunkComplete, hm, incrementCompletedCount,
    transitionJobStatus, Bool.false_eq_true, if_false]
  split
  · split <;> simp
  · simp

/-- C1: invoking `onChunkComplete` twice for the same `(jobId,
chunkIndex)` increments the job's `completedCount` exactly once: the
first call performs the `DONE` transition and increments the count,
and the second call observes `wasAlreadyDone = true` and returns with
the state unchanged and no merge trigger. -/
theorem C1_duplicate_delivery_increments_once (st : GateState) (i : Nat)
    (h : i < st.chunks.length) (hnd : st.chunks.get ⟨i, h⟩ ≠ .DONE) :
    (onChunkComplete st i).1.completedCount = st.completedCount + 1 ∧
    onChunkComplete (onChunkComplete st i).1 i
      = ((onChunkComplete st i).1, false) := by
  obtain ⟨hc, hcc⟩ := onChunkComplete_state_of_not_done st i h hnd
  refine ⟨hcc, ?_⟩
  have h1 : i < (onChunkComplete st i).1.chunks.length := by
    rw [hc]; simpa using h
  have hd : (onChunkComplete st i).1.chunks.get ⟨i, h1⟩ = .DONE := by
    simp only [List.get_eq_getElem]
    simp [hc]
  exact onChunkComplete_of_done _ i h1 hd

/-- Witness for C1 at a concrete state: two pending chunks, count 0,
job in progress; chunk 0 is delivered twice. -/
theorem C1_duplicate_delivery_increments_once_witness :
    (onChunkComplete ⟨[.PENDING, .PENDING], 0, .IN_PROGRESS⟩ 0).1.completedCount
        = 0 + 1 ∧
    onChunkComplete (onChunkComplete ⟨[.PENDING, .PENDING], 0, .IN_PROGRESS⟩ 0).1 0
      = ((onChunkComplete ⟨[.PENDING, .PENDING], 0, .IN_PROGRESS⟩ 0).1, false) :=
  C1_duplicate_delivery_increments_once
    ⟨[.PENDING, .PENDING], 0, .IN_PROGRESS⟩ 0 (by decide) (by decide)

/-- C2: when M ≥ 2 callers that have reached `newCount ==
expectedCount` race on the conditional `IN_PROGRESS → MERGING`
transition, exactly one of them observes `success = true` (and hence
only that one invokes the Merger). -/
theorem C2_exactly_once_merge_transition (st : GateState) (M : Nat)
    (hst : st.status = .IN_PROGRESS) (hM : 2 ≤ M) :
    (raceToMerging st M).2.count true = 1 := by
  obtain ⟨m, rfl⟩ : ∃ m, M = m + 1 := ⟨M - 1, by omega⟩
  simp only [raceToMerging, transitionJobStatus, if_pos hst]
  have hrest : (raceToMerging { st with status := .MERGING } m).2.count true = 0 :=
    raceToMerging_count_of_ne { st with status := .MERGING } m (by simp)
  simp [hrest]

/-- Witness for C2: three racing callers on an in-progress job. -/
theorem C2_exactly_once_merge_transition_witness :
    (raceToMerging ⟨[.DONE, .DONE], 2, .IN_PROGRESS⟩ 3).2.count true = 1 :=
  C2_exactly_once_merge_transition ⟨[.DONE, .DONE], 2, .IN_PROGRESS⟩ 3
    rfl (by decide)

/-- C6: a conditional update whose condition expression does not hold
on the current item returns the benign no-op result `null` to the
caller, while every failure other than a condition-check failure is
propagated to the caller as an error (and a plain successful update
returns the new attributes). -/
theorem C6_conditional_update_conflict_benign
    (current : Option DynamoItem) (cond : Option DynamoItem → Bool)
    (apply : Option DynamoItem → DynamoItem) :
    (cond current = false → updateItem current cond apply none = .ok none) ∧
    (∀ e : DynamoError, e ≠ .conditionalCheckFailed →
      updateItem current cond apply (some e) = .error e) ∧
    (cond current = true →
      updateItem current cond apply none = .ok (some (apply current))) := by
  refine ⟨?_, ?_, ?_⟩
  · intro hc
    simp [updateItem, dynamoServiceUpdate, hc]
  · intro e he
    cases e with
    | conditionalCheckFailed => exact absurd rfl he
    | resourceNotFound => simp [updateItem, dynamoServiceUpdate]
    | otherError code => simp [updateItem, dynamoServiceUpdate]
  · intro hc
    simp [updateItem, dynamoServiceUpdate, hc]

/-- Witness for C6 at a concrete item and condition: the condition
`attrs ≠ []` fails on an empty item, so the update returns `null`; a
`ResourceNotFoundException` is propagated. -/
theorem C6_conditional_update_conflict_benign_witness :
    updateItem (some ⟨[]⟩) (fun it => (it.getD ⟨[]⟩).attrs ≠ [])
        (fun it => it.getD ⟨[]⟩) none = .ok none ∧
    updateItem (some ⟨[]⟩) (fun it => (it.getD ⟨[]⟩).attrs ≠ [])
        (fun it => it.getD ⟨[]⟩) (some .resourceNotFound)
      = .error .resourceNotFound :=
  ⟨(C6_conditional_update_conflict_benign (some ⟨[]⟩) _ _).1 (by decide),
   (C6_conditional_update_conflict_benign (some ⟨[]⟩) _ _).2.1
      .resourceNotFound (by decide)⟩

/-- C9: `fileExists` returns `false` when the head request fails with
the `NotFound` error, returns `true` when the head request succeeds,
and propagates every other error to the caller instead of returning a
Boolean. -/
theorem C9_fileExists_boundary :
    fileExists (.ok ()) = .ok true ∧
    fileExists (.error .notFound) = .ok false ∧
    (∀ e : S3Error, e ≠ .notFound → fileExists (.error e) = .error e) := by
  refine ⟨rfl, rfl, ?_⟩
  intro e he
  cases e with
  | notFound => exact absurd rfl he
  | otherError code => rfl

/-- Witness for C9: a concrete non-NotFound error (access denied,
say code 403) is propagated. -/
theorem C9_fileExists_boundary_witness :
    fileExists (.error (.otherError 403)) = .error (.otherError 403) :=
  C9_fileExists_boundary.2.2 (.otherError 403) (by decide)

/-- C10: `DBConnect.transaction` commits and returns the callback's
result when the callback resolves, and rolls the pending writes back
and rethrows the same error when the callback throws, so a failed
callback commits no partial writes. -/
theorem C10_transaction_atomicity {α T ε : Type} (c : Conn α)
    (writes : List α) (outcome : Except ε T) :
    (∀ t : T, outcome = .ok t →
      transaction c writes outcome
        = ({ committed := c.committed ++ writes, pending := [] }, .ok t)) ∧
    (∀ e : ε, outcome = .error e →
      transaction c writes outcome
        = ({ committed := c.committed, pending := [] }, .error e)) := by
  constructor
  · rintro t rfl
    simp [transaction, beginTransaction, commit]
  · rintro e rfl
    simp [transaction, beginTransaction, rollback]

/-- Witness for C10: a failing callback that had already executed two
writes leaves the committed list unchanged and rethrows the error. -/
theorem C10_transaction_atomicity_witness :
    transaction (⟨[0], []⟩ : Conn Nat) [1, 2] (.error "boom" : Except String Nat)
      = (⟨[0], []⟩, .error "boom") :=
  (C10_transaction_atomicity ⟨[0], []⟩ [1, 2] (.error "boom")).2 "boom" rfl

/-- C3: for every total duration and chunk duration both positive, the
Splitter produces `expectedChunkCount = ceil(total / dur)` — the least
count whose chunks cover the source, characterized by
`(count - 1) * dur < total ≤ count * dur` — one range per chunk, and
the final chunk's `endTime` equals the total duration exactly. -/
theorem C3_splitter_chunk_geometry (total dur : ℚ) (ht : 0 < total)
    (hd : 0 < dur) :
    total ≤ (expectedChunkCount total dur : ℚ) * dur ∧
    ((expectedChunkCount total dur : ℚ) - 1) * dur < total ∧
    (chunkRanges total dur).length = expectedChunkCount total dur ∧
    ((chunkRanges total dur).map Prod.snd).getLast? = some total := by
  have hx : 0 < total / dur := div_pos ht hd
  have hceil : 0 < ⌈total / dur⌉ := Int.ceil_pos.mpr hx
  have hcast : ((expectedChunkCount total dur : ℚ)) = (⌈total / dur⌉ : ℚ) := by
    rw [expectedChunkCount]
    exact_mod_cast congrArg (fun z : ℤ => (z : ℚ))
      (Int.toNat_of_nonneg (le_of_lt hceil))
  have hle : total ≤ (expectedChunkCount total dur : ℚ) * dur := by
    rw [hcast]
    rw [← div_le_iff₀ hd]
    exact Int.le_ceil _
  have hlt : ((expectedChunkCount total dur : ℚ) - 1) * dur < total := by
    rw [hcast]
    rw [← lt_div_iff₀ hd]
    have := Int.ceil_lt_add_one (total / dur)
    push_cast at this
    linarith
  refine ⟨hle, hlt, by simp [chunkRanges], ?_⟩
  obtain ⟨m, hm⟩ : ∃ m, expectedChunkCount total dur = m + 1 := by
    refine ⟨expectedChunkCount total dur - 1, ?_⟩
    have : 0 < expectedChunkCount total dur := by
      rw [expectedChunkCount]
      omega
    omega
  have hmle : total ≤ ((m : ℚ) + 1) * dur := by
    have : ((expectedChunkCount total dur : ℚ)) = (m : ℚ) + 1 := by
      rw [hm]; push_cast; ring
    rw [this] at hle
    exact hle
  rw [chunkRanges, hm, List.map_map, List.range_succ, List.map_append]
  simp only [List.map_cons, List.map_nil, Function.comp]
  rw [List.getLast?_concat]
  rw [min_eq_right hmle]

/-- Witness for C3, the spec's scenario: a 95-second source with a
30-second chunk duration yields 4 chunks with ranges
`[0,30) [30,60) [60,90) [90,95)`. -/
theorem C3_splitter_chunk_geometry_witness :
    expectedChunkCount 95 30 = 4 ∧
    chunkRanges 95 30 = [(0, 30), (30, 60), (60, 90), (90, 95)] ∧
    (95 : ℚ) ≤ (expectedChunkCount 95 30 : ℚ) * 30 ∧
    ((expectedChunkCount 95 30 : ℚ) - 1) * 30 < 95 ∧
    (chunkRanges 95 30).length = expectedChunkCount 95 30 ∧
    ((chunkRanges 95 30).map Prod.snd).getLast? = some 95 := by
  have hcount : expectedChunkCount 95 30 = 4 := by
    have h : ⌈(95 : ℚ) / 30⌉ = 4 := by
      rw [Int.ceil_eq_iff]
      constructor
      · norm_num
      · norm_num
    simp [expectedChunkCount, h]
  have hmain := C3_splitter_chunk_geometry 95 30 (by norm_num) (by norm_num)
  refine ⟨hcount, ?_, hmain.1, hmain.2.1, hmain.2.2.1, hmain.2.2.2⟩
  rw [chunkRanges, hcount]
  simp only [List.range_succ, List.range_zero, List.map_append, List.map_cons,
    List.map_nil, List.nil_append, List.cons_append]
  norm_num

/-- Setting the status of a job that sits at the head of the table
updates that record in place. -/
theorem setJobRecordStatus_cons_self (j : String) (jb : JobRecord)
    (l : List (String × JobRecord)) (s : JobStatus) :
    setJobRecordStatus ((j, jb) :: l) j s
      = (j, { jb with status := s }) :: setJobRecordStatus l j s := by
  simp [setJobRecordStatus]

/-- After a `split`, the job record for that id exists in the Job
table. -/
theorem split_job_present (st : PipelineState) (jobId : String)
    (total dur : ℚ) :
    (((split st jobId total dur).1).jobs.lookup jobId).isSome = true := by
  by_cases h : (st.jobs.lookup jobId).isSome
  · simp [split, createJobIfAbsent, h]
  · simp only [split, createJobIfAbsent, h, if_false, if_true,
      Bool.false_eq_true]
    rw [setJobRecordStatus_cons_self]
    simp [List.lookup]

/-- A `split` invoked for a job id that already exists performs no
side effects at all: the whole pipeline state is unchanged. -/
theorem split_noop_of_present (st : PipelineState) (jobId : String)
    (total dur : ℚ) (h : (st.jobs.lookup jobId).isSome = true) :
    (split st jobId total dur).1 = st := by
  simp [split, createJobIfAbsent, h]

/-- C5: re-invoking `split` for the same `jobId` creates no duplicate
chunk records and enqueues no duplicate work items — after a first
`split` the job record exists, `createJobIfAbsent` returns
`created = false` (leaving the state untouched) on the second and
every later invocation, the Splitter performs its side effects only
when `created = true`, and a repeated `split` leaves the entire
pipeline state unchanged. -/
theorem C5_split_idempotent (st : PipelineState) (jobId : String)
    (total dur total' dur' : ℚ) (jb : JobRecord) :
    ((st.jobs.lookup jobId).isSome = true →
      createJobIfAbsent st jobId jb = (st, false)) ∧
    ((st.jobs.lookup jobId).isSome = true →
      (split st jobId total dur).1 = st) ∧
    ((((split st jobId total dur).1).jobs.lookup jobId).isSome = true) ∧
    (split ((split st jobId total dur).1) jobId total' dur').1
      = (split st jobId total dur).1 := by
  refine ⟨?_, split_noop_of_present st jobId total dur,
    split_job_present st jobId total dur, ?_⟩
  · intro h
    simp [createJobIfAbsent, h]
  · exact split_noop_of_present _ jobId total' dur'
      (split_job_present st jobId total dur)

/-- Witness for C5 at a concrete state: an empty pipeline, the spec's
95-second job split into 30-second chunks, then split again. -/
theorem C5_split_idempotent_witness :
    (((⟨[("job-1", ⟨4, .IN_PROGRESS⟩)], [], []⟩ : PipelineState).jobs.lookup
        "job-1").isSome = true →
      createJobIfAbsent ⟨[("job-1", ⟨4, .IN_PROGRESS⟩)], [], []⟩ "job-1"
          ⟨4, .SPLITTING⟩
        = (⟨[("job-1", ⟨4, .IN_PROGRESS⟩)], [], []⟩, false)) ∧
    (((⟨[("job-1", ⟨4, .IN_PROGRESS⟩)], [], []⟩ : PipelineState).jobs.lookup
        "job-1").isSome = true →
      (split ⟨[("job-1", ⟨4, .IN_PROGRESS⟩)], [], []⟩ "job-1" 95 30).1
        = ⟨[("job-1", ⟨4, .IN_PROGRESS⟩)], [], []⟩) ∧
    ((((split ⟨[("job-1", ⟨4, .IN_PROGRESS⟩)], [], []⟩ "job-1" 95 30).1).jobs.lookup
        "job-1").isSome = true) ∧
    (split ((split ⟨[("job-1", ⟨4, .IN_PROGRESS⟩)], [], []⟩ "job-1" 95 30).1)
        "job-1" 95 30).1
      = (split ⟨[("job-1", ⟨4, .IN_PROGRESS⟩)], [], []⟩ "job-1" 95 30).1 :=
  C5_split_idempotent ⟨[("job-1", ⟨4, .IN_PROGRESS⟩)], [], []⟩ "job-1"
    95 30 95 30 ⟨4, .SPLITTING⟩

/-- A sequence of writes to indices other than `k` leaves slot `k`
untouched. -/
theorem applyWrites_of_not_mem (init : Nat → Option (List Nat))
    (ws : List (Nat × List Nat)) (k : Nat) (hk : k ∉ ws.map Prod.fst) :
    applyWrites init ws k = init k := by
  induction ws generalizing init with
  | nil => rfl
  | cons w t ih =>
    simp only [List.map_cons, List.mem_cons, not_or] at hk
    have step : applyWrites init (w :: t)
        = applyWrites (Function.update init w.1 (some w.2)) t := rfl
    rw [step, ih _ hk.2, Function.update_noteq hk.1]

/-- When each index is written at most once, slot `k` ends up holding
the value written for `k`. -/
theorem applyWrites_of_mem (init : Nat → Option (List Nat))
    (ws : List (Nat × List Nat)) (k : Nat) (v : List Nat)
    (hnd : (ws.map Prod.fst).Nodup) (hmem : (k, v) ∈ ws) :
    applyWrites init ws k = some v := by
  induction ws generalizing init with
  | nil => simp at hmem
  | cons w t ih =>
    simp only [List.map_cons, List.nodup_cons] at hnd
    have step : applyWrites init (w :: t)
        = applyWrites (Function.update init w.1 (some w.2)) t := rfl
    rcases List.mem_cons.1 hmem with heq | hmem'
    · subst heq
      rw [step, applyWrites_of_not_mem _ _ _ hnd.1, Function.update_same]
    · rw [step]
      exact ih _ hnd.2 hmem'

/-- C7: for a completed job, whatever the order in which its chunks
completed (any permutation of the per-chunk output writes), `merge`
succeeds and produces the concatenation of the chunk outputs taken in
ascending `chunkIndex` order — the merged artifact is independent of
the completion order. -/
theorem C7_merge_order_independent (n : Nat) (outputs : Nat → List Nat)
    (ws : List (Nat × List Nat))
    (hperm : ws.Perm ((List.range n).map (fun i => (i, outputs i)))) :
    merge (applyWrites (fun _ => none) ws) n
      = .ok (((List.range n).map outputs).flatten) := by
  have hkeys : (ws.map Prod.fst).Perm (List.range n) := by
    have hmap := hperm.map Prod.fst
    simpa [List.map_map, Function.comp_def] using hmap
  have hnd : (ws.map Prod.fst).Nodup :=
    hkeys.nodup_iff.2 (List.nodup_range n)
  have hstore : ∀ i < n, applyWrites (fun _ => none) ws i
      = some (outputs i) := by
    intro i hi
    exact applyWrites_of_mem _ _ _ _ hnd
      (hperm.mem_iff.2 (List.mem_map.2 ⟨i, List.mem_range.2 hi, rfl⟩))
  rw [merge, if_pos]
  · have hcongr : (List.range n).map
        (fun i => (applyWrites (fun _ => none) ws i).getD [])
        = (List.range n).map outputs := by
      apply List.map_congr_left
      intro i hi
      rw [hstore i (List.mem_range.1 hi)]
      rfl
    rw [hcongr]
  · intro i hi
    rw [hstore i (List.mem_range.1 hi)]
    rfl

/-- Witness for C7: two chunks completing in reverse order still merge
into the in-order concatenation. -/
theorem C7_merge_order_independent_witness :
    merge (applyWrites (fun _ => none) [(1, [11]), (0, [10])]) 2
      = .ok (((List.range 2).map (fun i => [i + 10])).flatten) :=
  C7_merge_order_independent 2 (fun i => [i + 10]) [(1, [11]), (0, [10])]
    (by decide)

/-- C8: the result returned to the job submitter carries exactly the
shape `{ status, message, chunks?: [{ outputRef, startTime }] }`: the
source's `MyResult` (`statusCode`, `body.message`, optional
`body.chunks` whose entries hold the chunk's output reference `s3Path`
and its `startTime`) corresponds field-for-field to the spec's result
shape, and the correspondence is a bijection. -/
theorem C8_result_shape :
    (∀ r : MyResult,
      (toSpecResult r).status = r.statusCode ∧
      (toSpecResult r).message = r.body.message ∧
      (toSpecResult r).chunks
        = r.body.chunks.map (List.map fun c => ⟨c.s3Path, c.startTime⟩)) ∧
    Function.LeftInverse fromSpecResult toSpecResult ∧
    Function.RightInverse fromSpecResult toSpecResult := by
  refine ⟨fun r => ⟨rfl, rfl, rfl⟩, ?_, ?_⟩
  · intro r
    obtain ⟨sc, msg, chunks⟩ := r
    cases chunks with
    | none => rfl
    | some l =>
      simp only [toSpecResult, fromSpecResult, Option.map_some, List.map_map]
      simp [Function.comp_def]
  · intro r
    obtain ⟨s, msg, chunks⟩ := r
    cases chunks with
    | none => rfl
    | some l =>
      simp only [toSpecResult, fromSpecResult, Option.map_some, List.map_map]
      simp [Function.comp_def]

/-- Setting a not-yet-`DONE` chunk to `DONE` increases the number of
`DONE` chunks by exactly one. -/
theorem count_done_set (l : List ChunkStatus) (i : Nat) (h : i < l.length)
    (hnd : l.get ⟨i, h⟩ ≠ .DONE) :
    (l.set i ChunkStatus.DONE).count .DONE = l.count .DONE + 1 := by
  induction l generalizing i with
  | nil => simp at h
  | cons a t ih =>
    cases i with
    | zero =>
      simp only [List.get] at hnd
      simp [List.set, List.count_cons, hnd]
    | succ n =>
      have h' : n < t.length := Nat.lt_of_succ_lt_succ h
      simp only [List.get] at hnd
      have hset : (a :: t).set (n + 1) ChunkStatus.DONE
          = a :: t.set n ChunkStatus.DONE := rfl
      rw [hset, List.count_cons, List.count_cons, ih n h' hnd]
      omega

/-- The coupling invariant of the Completion Gate: the stored counter
always equals the number of chunks marked `DONE`. -/
def GateInv (st : GateState) : Prop :=
  st.completedCount = doneCount st

/-- Every pipeline operation preserves the coupling invariant. -/
theorem gateStep_inv (s s' : GateState) (hstep : GateStep s s')
    (hinv : GateInv s) : GateInv s' := by
  cases hstep with
  | complete i =>
    by_cases h : i < s.chunks.length
    · by_cases hd : s.chunks.get ⟨i, h⟩ = .DONE
      · rw [onChunkComplete_of_done s i h hd]
        exact hinv
      · obtain ⟨hc, hcc⟩ := onChunkComplete_state_of_not_done s i h hd
        unfold GateInv doneCount at hinv ⊢
        rw [hcc, hc, count_done_set s.chunks i h hd, hinv]
    · have hno : onChunkComplete s i = (s, false) := by
        simp [onChunkComplete, markChunkDone, h]
      rw [hno]
      exact hinv
  | activate =>
    unfold GateInv doneCount at hinv
    unfold GateInv doneCount transitionJobStatus
    split <;> exact hinv
  | finishMerge =>
    unfold GateInv doneCount at hinv
    unfold GateInv doneCount transitionJobStatus
    split <;> exact hinv
  | fail h1 h2 =>
    exact hinv

/-- Every reachable job record satisfies the coupling invariant. -/
theorem reachable_gateInv (st : GateState) (h : ReachableGate st) :
    GateInv st := by
  obtain ⟨st0, hinit, hpath⟩ := h
  induction hpath with
  | refl =>
    obtain ⟨hp, hc, -⟩ := hinit
    unfold GateInv doneCount
    rw [hc, List.count_eq_zero.2]
    intro hmem
    exact absurd (hp _ hmem) (by simp)
  | tail hsteps hstep ih =>
    exact gateStep_inv _ _ hstep ih

/-- The status after `onChunkComplete` is either unchanged or moved
from `IN_PROGRESS` to `MERGING` at the completion threshold. -/
theorem onChunkComplete_status (st : GateState) (i : Nat) :
    (onChunkComplete st i).1.status = st.status ∨
    (st.status = .IN_PROGRESS ∧ (onChunkComplete st i).1.status = .MERGING) := by
  by_cases h : i < st.chunks.length
  · by_cases hd : st.chunks.get ⟨i, h⟩ = .DONE
    · rw [onChunkComplete_of_done st i h hd]
      left
      rfl
    · have hm : markChunkDone st i
          = ({ st with chunks := st.chunks.set i .DONE }, false) := by
        simp only [List.get_eq_getElem] at hd
        simp [markChunkDone, h, hd]
      simp only [onChunkComplete, hm, incrementCompletedCount,
        transitionJobStatus, Bool.false_eq_true, if_false]
      split
      · split
        · next hc => right; exact ⟨by simpa using hc, rfl⟩
        · left; rfl
      · left; rfl
  · have hno : onChunkComplete st i = (st, false) := by
      simp [onChunkComplete, markChunkDone, h]
    rw [hno]
    left
    rfl

/-- Every pipeline operation moves the job status only forward. -/
theorem gateStep_forward (s s' : GateState) (hstep : GateStep s s') :
    ForwardStep s.status s'.status := by
  cases hstep with
  | complete i =>
    rcases onChunkComplete_status s i with heq | ⟨h1, h2⟩
    · left
      exact heq.symm
    · right; right; left
      exact ⟨h1, h2⟩
  | activate =>
    unfold ForwardStep transitionJobStatus
    split
    · next hc => right; left; exact ⟨hc, rfl⟩
    · left; rfl
  | finishMerge =>
    unfold ForwardStep transitionJobStatus
    split
    · next hc => right; right; right; left; exact ⟨hc, rfl⟩
    · left; rfl
  | fail h1 h2 =>
    right; right; right; right
    exact ⟨rfl, h1, h2⟩

/-- A forward step never takes a job that is in `MERGING` or
`COMPLETE` back to `IN_PROGRESS`. -/
theorem forwardStep_no_regress (a b : JobStatus) (hf : ForwardStep a b)
    (ha : a = .MERGING ∨ a = .COMPLETE) : b ≠ .IN_PROGRESS := by
  rcases hf with rfl | ⟨h1, h2⟩ | ⟨h1, h2⟩ | ⟨h1, h2⟩ | ⟨h1, hne⟩ <;>
    rcases ha with rfl | rfl <;> simp_all

/-- C4: for every reachable job record, `completedChunkCount` never
exceeds `expectedChunkCount`, and every pipeline operation moves the
job status only forward in the order
`SPLITTING, IN_PROGRESS, MERGING, COMPLETE` (with `FAILED` reachable
from any non-terminal state); in particular no operation moves a job
from `MERGING` or `COMPLETE` back to `IN_PROGRESS`. -/
theorem C4_job_record_invariants :
    (∀ st : GateState, ReachableGate st →
      st.completedCount ≤ st.expectedCount) ∧
    (∀ s s' : GateState, GateStep s s' →
      ForwardStep s.status s'.status ∧
      ((s.status = .MERGING ∨ s.status = .COMPLETE) →
        s'.status ≠ .IN_PROGRESS)) := by
  constructor
  · intro st h
    have hinv := reachable_gateInv st h
    unfold GateInv doneCount at hinv
    rw [GateState.expectedCount, hinv]
    exact List.count_le_length _ _
  · intro s s' hstep
    have hf := gateStep_forward s s' hstep
    exact ⟨hf, forwardStep_no_regress _ _ hf⟩

/-- Witness for C4: the state `⟨[DONE], 1, MERGING⟩` reached by
splitting a one-chunk job, activating it and completing its only
chunk satisfies the counter bound, and the Splitter's activation step
moves the status forward. -/
theorem C4_job_record_invariants_witness :
    ((⟨[.DONE], 1, .MERGING⟩ : GateState).completedCount
        ≤ (⟨[.DONE], 1, .MERGING⟩ : GateState).expectedCount) ∧
    (ForwardStep (⟨[.PENDING], 0, .SPLITTING⟩ : GateState).status
        (transitionJobStatus ⟨[.PENDING], 0, .SPLITTING⟩
          .SPLITTING .IN_PROGRESS).1.status ∧
      (((⟨[.PENDING], 0, .SPLITTING⟩ : GateState).status = .MERGING ∨
          (⟨[.PENDING], 0, .SPLITTING⟩ : GateState).status = .COMPLETE) →
        (transitionJobStatus ⟨[.PENDING], 0, .SPLITTING⟩
          .SPLITTING .IN_PROGRESS).1.status ≠ .IN_PROGRESS)) := by
  constructor
  · apply C4_job_record_invariants.1
    refine ⟨⟨[.PENDING], 0, .SPLITTING⟩, ⟨by decide, rfl, rfl⟩, ?_⟩
    exact Relation.ReflTransGen.tail
      (Relation.ReflTransGen.single
        (GateStep.activate ⟨[.PENDING], 0, .SPLITTING⟩))
      (GateStep.complete ⟨[.PENDING], 0, .IN_PROGRESS⟩ 0)
  · exact C4_job_record_invariants.2 _ _
      (GateStep.activate ⟨[.PENDING], 0, .SPLITTING⟩)

end SamBun
